import Mathlib

/-!
Verification development for the dol_c_kit patch-assembly engine
(`src/dol_c_kit/devkit_tools.py`).

The Python module is embedded shallowly:

* byte sequences are `List Nat` (each entry a byte value),
* the DOL image (external `dolreader.DolFile`) is modelled from its
  interface: two ordered lists of sections (text and data), a mapped-address
  query, and byte/word writes at absolute addresses,
* the symbol table is an association list from names to entries whose
  `st_value` may be absent (the synthetic small-data-area entries carry
  `None` when the corresponding base was never configured),
* fallible operations return `Except String`.

`dol_c_kit/doltools.py` is imported by the module but is not part of the
sources; the helpers taken from it (`mask_field`, `hi`, `lo`, `hia`,
`assemble_branch`, `write_branch`) are modelled from the specification and
marked as such in their doc comments.
-/

/-- Big-endian byte decomposition of a 32-bit word (the DOL container is
big-endian). -/
def bytesOfWord32 (w : Nat) : List Nat :=
  [w >>> 24 % 256, w >>> 16 % 256, w >>> 8 % 256, w % 256]

/-- Big-endian byte decomposition of a 16-bit halfword. -/
def bytesOfWord16 (w : Nat) : List Nat :=
  [w >>> 8 % 256, w % 256]

/-- Modelled from the spec: `dol_c_kit/doltools.py` (absent from the
sources) provides `mask_field`, which masks an integer value to its low
`bits` bits.  Per the in-source comment (devkit_tools.py lines 163-165) the
`signed` flag does not change the stored bits, since any sign extension is
masked off regardless. -/
def mask_field (value : Int) (bits : Nat) (signed : Bool) : Nat :=
  (value.emod (2 ^ bits)).toNat

/-- Modelled from the spec: `doltools.hi` — the high half of an address
(bits 16-31), plus 1 if bit 15 is set, when the signed/adjusted form is
requested (spec section 4.1). -/
def hi (value : Nat) (signed : Bool) : Nat :=
  (value >>> 16) % 2 ^ 16 + (if signed ∧ value % 2 ^ 16 ≥ 2 ^ 15 then 1 else 0)

/-- Modelled from the spec: `doltools.lo` — the low half of an address
(bits 0-15); the signed treatment only matters for masking, which leaves
the stored bits unchanged (spec section 4.1). -/
def lo (value : Nat) (signed : Bool) : Nat :=
  value % 2 ^ 16

/-- Modelled from the spec: `doltools.hia` — as the high half with the
carry compensation, independent of the sign-compensation flag
(spec section 4.1). -/
def hia (value : Nat) (signed : Bool) : Nat :=
  (value >>> 16) % 2 ^ 16 + (if value % 2 ^ 16 ≥ 2 ^ 15 then 1 else 0)

/-- Modelled from the spec: `doltools.assemble_branch` — a PowerPC I-form
branch instruction from `source` to `target` (opcode 18, 26-bit
displacement field, optional link bit), as four big-endian bytes.  The
claims treat the encoding abstractly: they only ever compare against
`assemble_branch` itself. -/
def assemble_branch (source target : Nat) (lk : Bool) : List Nat :=
  bytesOfWord32 ((18 <<< 26) |||
    ((((target : Int) - (source : Int)).emod (2 ^ 32)).toNat &&& 0x03FFFFFC) |||
    (if lk then 1 else 0))

/-- One section of the base executable image: an absolute load address and
its byte contents (its size is the length of the data).  Models the
interface of `dolreader.Section`. -/
structure DolSection where
  address : Nat
  data : List Nat
deriving DecidableEq, Repr

/-- The base executable image, modelled from the `dolreader.DolFile`
interface: an ordered list of code-bearing (text) sections and an ordered
list of data-bearing sections. -/
structure DolFile where
  textSections : List DolSection
  dataSections : List DolSection
deriving DecidableEq, Repr

/-- All sections of the image, text sections first (mirrors
`DolFile.sections`). -/
def DolFile.allSections (dol : DolFile) : List DolSection :=
  dol.textSections ++ dol.dataSections

/-- Whether the absolute address `a` falls inside section `s`. -/
def sectionContains (s : DolSection) (a : Nat) : Bool :=
  decide (s.address ≤ a ∧ a < s.address + s.data.length)

/-- Write one byte at absolute address `a` into section `s`, when `a` is
inside it; otherwise leave the section unchanged. -/
def sectionWriteByte (s : DolSection) (a b : Nat) : DolSection :=
  if sectionContains s a then { s with data := s.data.set (a - s.address) b }
  else s

/-- Write one byte at absolute address `a` into every section of the list
that contains `a`. -/
def writeByteSecs (secs : List DolSection) (a b : Nat) : List DolSection :=
  secs.map (fun s => sectionWriteByte s a b)

/-- Read the byte at absolute address `a` from the first section of the
list that contains `a`. -/
def readByteSecs (secs : List DolSection) (a : Nat) : Option Nat :=
  match secs with
  | [] => none
  | s :: rest =>
    if sectionContains s a then s.data.get? (a - s.address)
    else readByteSecs rest a

/-- `DolFile.is_mapped`: whether some section of the image covers the
address. -/
def DolFile.is_mapped (dol : DolFile) (a : Nat) : Bool :=
  dol.allSections.any (fun s => sectionContains s a)

/-- Write one byte at an absolute address.  Bytes aimed at unmapped
addresses are dropped (the external image container faults there instead;
the claims only exercise mapped addresses). -/
def DolFile.writeByte (dol : DolFile) (a b : Nat) : DolFile :=
  { textSections := writeByteSecs dol.textSections a b,
    dataSections := writeByteSecs dol.dataSections a b }

/-- Write a byte sequence starting at an absolute address (models
`dol.seek(a)` followed by `dol.write(bytes)`). -/
def DolFile.writeBytes (dol : DolFile) (a : Nat) : List Nat → DolFile
  | [] => dol
  | b :: bs => (dol.writeByte a b).writeBytes (a + 1) bs

/-- Read the byte at an absolute address. -/
def DolFile.readByte (dol : DolFile) (a : Nat) : Option Nat :=
  readByteSecs dol.allSections a

/-- Read `n` consecutive bytes starting at an absolute address. -/
def DolFile.readBytes (dol : DolFile) (a : Nat) : Nat → List (Option Nat)
  | 0 => []
  | n + 1 => dol.readByte a :: dol.readBytes (a + 1) n

/-- `dol.write_uint32(a, v)`: write a 32-bit big-endian word. -/
def DolFile.write_uint32 (dol : DolFile) (a v : Nat) : DolFile :=
  dol.writeBytes a (bytesOfWord32 v)

/-- `dol.write_uint16(a, v)`: write a 16-bit big-endian halfword. -/
def DolFile.write_uint16 (dol : DolFile) (a v : Nat) : DolFile :=
  dol.writeBytes a (bytesOfWord16 v)

/-- `find_rom_end` (devkit_tools.py lines 249-254): the end of the
highest-addressed section, floored at 0x80000000. -/
def find_rom_end (dol : DolFile) : Nat :=
  dol.allSections.foldl
    (fun rom_end s =>
      if s.address + s.data.length > rom_end then s.address + s.data.length
      else rom_end)
    0x80000000

/-- A symbol-table entry as consumed by the hooks.  Only the `st_value`
field is read by the embedded code; it is absent (`none`) exactly for the
synthetic `_SDA_BASE_` / `_SDA2_BASE_` entries when the corresponding base
address was never configured (devkit_tools.py lines 697-698). -/
structure SymEntry where
  st_value : Option Nat
deriving DecidableEq, Repr

/-- The symbol table: an association list from symbol names to entries. -/
def SymTab : Type := List (String × SymEntry)

/-- Dictionary lookup (`name in symbols` / `symbols[name]`). -/
def lookupSym (symbols : SymTab) (name : String) : Option SymEntry :=
  List.lookup name symbols

/-- Truthiness of an optional numeric payload: Python gates hook
application on `if self.data:`, which is false both for `None` and for the
number zero. -/
def dataTruthy (d : Option Nat) : Bool :=
  match d with
  | none => false
  | some v => v != 0

/-- A patch-script command emitted for a hook, modelled from the interface
of the external `geckolibs` command constructors used by
`write_geckocommand` (WriteBranch, Write32, Write16, WriteString). -/
inductive GeckoEmit
  | writeBranch (value addr : Nat) (isLink : Bool)
  | write32 (value addr : Nat)
  | write16 (value addr : Nat)
  | writeString (value : List Nat) (addr : Nat)
deriving DecidableEq, Repr

/-- `BranchHook` (devkit_tools.py lines 34-58). -/
structure BranchHook where
  addr : Nat
  sym_name : String
  lk_bit : Bool
  good : Bool
  data : Option Nat
deriving DecidableEq, Repr

/-- `BranchHook.resolve`: on a symbol-table hit the payload becomes the
symbol's value; on a miss the hook is left unchanged. -/
def BranchHook.resolve (h : BranchHook) (symbols : SymTab) : BranchHook :=
  match lookupSym symbols h.sym_name with
  | none => h
  | some entry => { h with data := entry.st_value }

/-- `BranchHook.apply_dol`: gated on the truthiness of the payload and on
the target address being mapped. -/
def BranchHook.apply_dol (h : BranchHook) (dol : DolFile) : BranchHook × DolFile :=
  match h.data with
  | some d =>
    if d != 0 && dol.is_mapped h.addr then
      ({ h with good := true },
       dol.writeBytes h.addr (assemble_branch h.addr d h.lk_bit))
    else (h, dol)
  | none => (h, dol)

/-- `BranchHook.write_geckocommand`: emits a write-branch command when the
payload is truthy, nothing otherwise. -/
def BranchHook.write_geckocommand (h : BranchHook) : BranchHook × Option GeckoEmit :=
  match h.data with
  | some d =>
    if d != 0 then ({ h with good := true }, some (.writeBranch d h.addr h.lk_bit))
    else (h, none)
  | none => (h, none)

/-- `PointerHook` (devkit_tools.py lines 60-82). -/
structure PointerHook where
  addr : Nat
  sym_name : String
  good : Bool
  data : Option Nat
deriving DecidableEq, Repr

/-- `PointerHook.resolve`. -/
def PointerHook.resolve (h : PointerHook) (symbols : SymTab) : PointerHook :=
  match lookupSym symbols h.sym_name with
  | none => h
  | some entry => { h with data := entry.st_value }

/-- `PointerHook.apply_dol`: writes the 32-bit absolute address when the
payload is truthy and the target is mapped. -/
def PointerHook.apply_dol (h : PointerHook) (dol : DolFile) : PointerHook × DolFile :=
  match h.data with
  | some d =>
    if d != 0 && dol.is_mapped h.addr then
      ({ h with good := true }, dol.write_uint32 h.addr d)
    else (h, dol)
  | none => (h, dol)

/-- `PointerHook.write_geckocommand`. -/
def PointerHook.write_geckocommand (h : PointerHook) : PointerHook × Option GeckoEmit :=
  match h.data with
  | some d =>
    if d != 0 then ({ h with good := true }, some (.write32 d h.addr))
    else (h, none)
  | none => (h, none)

/-- `StringHook` (devkit_tools.py lines 84-114).  The character encoding is
delegated to the runtime; the hook is modelled as carrying the
already-encoded byte sequence of its string. -/
structure StringHook where
  addr : Nat
  stringBytes : List Nat
  max_strlen : Option Nat
  good : Bool
  data : List Nat
deriving DecidableEq, Repr

/-- `StringHook.resolve`: encodes the string with a trailing NUL and, when
a maximum length is given and not exceeded, pads with zero bytes up to it.
It never consults the symbol table. -/
def StringHook.resolve (h : StringHook) (symbols : SymTab) : StringHook :=
  let encoded := h.stringBytes ++ [0]
  match h.max_strlen with
  | none => { h with data := encoded }
  | some m =>
    if encoded.length > m then { h with data := encoded }
    else { h with data := encoded ++ List.replicate (m - encoded.length) 0 }

/-- `StringHook.apply_dol`: writes the payload whenever the target address
is mapped — there is no payload gate. -/
def StringHook.apply_dol (h : StringHook) (dol : DolFile) : StringHook × DolFile :=
  if dol.is_mapped h.addr then
    ({ h with good := true }, dol.writeBytes h.addr h.data)
  else (h, dol)

/-- `StringHook.write_geckocommand`: always emits a write-string command. -/
def StringHook.write_geckocommand (h : StringHook) : StringHook × Option GeckoEmit :=
  ({ h with good := true }, some (.writeString h.data h.addr))

/-- `FileHook` (devkit_tools.py lines 116-154).  `stop` models the
Python `end` slice bound. -/
structure FileHook where
  addr : Nat
  filepath : String
  start : Nat
  stop : Option Nat
  max_size : Option Nat
  good : Bool
  data : List Nat
deriving DecidableEq, Repr

/-- `FileHook.resolve`: file I/O is external, so the (optional) file
contents are passed in; an unopenable file (`none`) leaves the payload
empty with a warning, never aborting the build. -/
def FileHook.resolve (h : FileHook) (contents : Option (List Nat)) : FileHook :=
  match contents with
  | none => h
  | some bytes =>
    let sliced :=
      match h.stop with
      | none => bytes.drop h.start
      | some e => (bytes.take e).drop h.start
    match h.max_size with
    | none => { h with data := sliced }
    | some m =>
      if sliced.length > m then { h with data := sliced }
      else { h with data := sliced ++ List.replicate (m - sliced.length) 0 }

/-- `FileHook.apply_dol`: writes the payload (possibly empty) whenever the
target address is mapped — there is no payload gate. -/
def FileHook.apply_dol (h : FileHook) (dol : DolFile) : FileHook × DolFile :=
  if dol.is_mapped h.addr then
    ({ h with good := true }, dol.writeBytes h.addr h.data)
  else (h, dol)

/-- `FileHook.write_geckocommand`. -/
def FileHook.write_geckocommand (h : FileHook) : FileHook × Option GeckoEmit :=
  ({ h with good := true }, some (.writeString h.data h.addr))

/-- Error message for a missing `@sda` base (devkit_tools.py line 175). -/
def sdaErrMsg : String :=
  "sda_base must be set before using the @sda modifier"

/-- Error message for a missing `@sda2` base (devkit_tools.py line 179). -/
def sda2ErrMsg : String :=
  "sda2_base must be set before using the @sda2 modifier"

/-- Error for a dictionary access on a missing key (a Python `KeyError`,
raised when the synthetic SDA entries are not in the table at all). -/
def keyErrMsg : String :=
  "KeyError"

/-- Error for an integer operation applied to an absent (`None`) value (a
Python `TypeError`). -/
def typeErrMsg : String :=
  "TypeError"

/-- Extract a symbol value for use in arithmetic; an absent value faults
like the Python integer operations would. -/
def getVal (entry : SymEntry) : Except String Nat :=
  match entry.st_value with
  | none => .error typeErrMsg
  | some v => .ok v

/-- The modifier dispatch shared verbatim by `Immediate16Hook.resolve`
(devkit_tools.py lines 167-182) and `Immediate12Hook.resolve` (lines
214-230): given the looked-up entry of the hook's own symbol, produce the
new raw payload.  The unknown-modifier arm only prints a diagnostic and
leaves the payload as it was. -/
def immediate_modifier_step (symbols : SymTab) (modifier : String)
    (entry : SymEntry) (data0 : Option Nat) : Except String (Option Nat) :=
  if modifier = "@h" then do
    let v ← getVal entry
    .ok (some (hi v true))
  else if modifier = "@l" then do
    let v ← getVal entry
    .ok (some (lo v true))
  else if modifier = "@ha" then do
    let v ← getVal entry
    .ok (some (hia v true))
  else if modifier = "@sda" then
    match lookupSym symbols "_SDA_BASE_" with
    | none => .error keyErrMsg
    | some base =>
      match base.st_value with
      | none => .error sdaErrMsg
      | some b => do
        let v ← getVal entry
        .ok (some (mask_field ((v : Int) - (b : Int)) 16 true))
  else if modifier = "@sda2" then
    match lookupSym symbols "_SDA2_BASE_" with
    | none => .error keyErrMsg
    | some base =>
      match base.st_value with
      | none => .error sda2ErrMsg
      | some b => do
        let v ← getVal entry
        .ok (some (mask_field ((v : Int) - (b : Int)) 16 true))
  else
    .ok data0

/-- `Immediate16Hook` (devkit_tools.py lines 156-198). -/
structure Immediate16Hook where
  addr : Nat
  sym_name : String
  modifier : String
  good : Bool
  data : Option Nat
deriving DecidableEq, Repr

/-- `Immediate16Hook.resolve`: on a symbol hit, run the modifier dispatch
and then re-mask the payload to 16 bits unconditionally (line 183).  When
the dispatch left the payload absent (unknown modifier on a fresh hook)
that final masking applies an integer operation to `None` and faults. -/
def Immediate16Hook.resolve (h : Immediate16Hook) (symbols : SymTab) :
    Except String Immediate16Hook :=
  match lookupSym symbols h.sym_name with
  | none => .ok h
  | some entry => do
    let d ← immediate_modifier_step symbols h.modifier entry h.data
    match d with
    | none => .error typeErrMsg
    | some x => .ok { h with data := some (mask_field (x : Int) 16 true) }

/-- `Immediate16Hook.apply_dol`. -/
def Immediate16Hook.apply_dol (h : Immediate16Hook) (dol : DolFile) :
    Immediate16Hook × DolFile :=
  match h.data with
  | some d =>
    if d != 0 && dol.is_mapped h.addr then
      ({ h with good := true }, dol.write_uint16 h.addr d)
    else (h, dol)
  | none => (h, dol)

/-- `Immediate16Hook.write_geckocommand`. -/
def Immediate16Hook.write_geckocommand (h : Immediate16Hook) :
    Immediate16Hook × Option GeckoEmit :=
  match h.data with
  | some d =>
    if d != 0 then ({ h with good := true }, some (.write16 d h.addr))
    else (h, none)
  | none => (h, none)

/-- `Immediate12Hook` (devkit_tools.py lines 201-247): a 12-bit immediate
packed with the caller-supplied 1-bit `i` and 3-bit `w` sub-fields for the
paired-singles load/store family. -/
structure Immediate12Hook where
  addr : Nat
  w : Nat
  i : Nat
  sym_name : String
  modifier : String
  good : Bool
  data : Option Nat
deriving DecidableEq, Repr

/-- The packing of the final `Immediate12Hook` payload (devkit_tools.py
lines 230-232): the raw value masked to 12 bits, ORed with the 1-bit `i`
sub-field at bit 12 and the 3-bit `w` sub-field at bits 13-15. -/
def imm12pack (x iField wField : Nat) : Nat :=
  mask_field (x : Int) 12 true |||
    mask_field (iField : Int) 1 false <<< 12 |||
    mask_field (wField : Int) 3 false <<< 13

/-- `Immediate12Hook.resolve`: the same modifier dispatch, then the payload
is masked to 12 bits and ORed with the masked `i` and `w` sub-fields at
bits 12 and 13-15 (lines 230-232, `imm12pack`).  As for `Immediate16Hook`,
an absent payload at the masking step faults. -/
def Immediate12Hook.resolve (h : Immediate12Hook) (symbols : SymTab) :
    Except String Immediate12Hook :=
  match lookupSym symbols h.sym_name with
  | none => .ok h
  | some entry => do
    let d ← immediate_modifier_step symbols h.modifier entry h.data
    match d with
    | none => .error typeErrMsg
    | some x => .ok { h with data := some (imm12pack x h.i h.w) }

/-- `Immediate12Hook.apply_dol`. -/
def Immediate12Hook.apply_dol (h : Immediate12Hook) (dol : DolFile) :
    Immediate12Hook × DolFile :=
  match h.data with
  | some d =>
    if d != 0 && dol.is_mapped h.addr then
      ({ h with good := true }, dol.write_uint16 h.addr d)
    else (h, dol)
  | none => (h, dol)

/-- `Immediate12Hook.write_geckocommand`. -/
def Immediate12Hook.write_geckocommand (h : Immediate12Hook) :
    Immediate12Hook × Option GeckoEmit :=
  match h.data with
  | some d =>
    if d != 0 then ({ h with good := true }, some (.write16 d h.addr))
    else (h, none)
  | none => (h, none)

/-- The command kinds of the injectable code table, modelled from the
`geckolibs` interface: the eight kinds listed in
`SupportedGeckoCodetypes` (devkit_tools.py lines 263-272) plus a
representative unsupported kind. -/
inductive GeckoCodetype
  | WRITE_8
  | WRITE_16
  | WRITE_32
  | WRITE_STR
  | WRITE_SERIAL
  | WRITE_BRANCH
  | ASM_INSERT
  | ASM_INSERT_XOR
  | UNSUPPORTED
deriving DecidableEq, Repr

/-- `SupportedGeckoCodetypes` (devkit_tools.py lines 263-272). -/
def SupportedGeckoCodetypes : List GeckoCodetype :=
  [.WRITE_8, .WRITE_16, .WRITE_32, .WRITE_STR, .WRITE_SERIAL,
   .WRITE_BRANCH, .ASM_INSERT, .ASM_INSERT_XOR]

/-- One injectable code command: its kind, its origin address (the
`_address` attribute, without the high bit) and its raw payload bytes. -/
structure GeckoCommand where
  codetype : GeckoCodetype
  address : Nat
  value : List Nat
deriving DecidableEq, Repr

/-- One injectable code entry: a name, an enabled flag and its commands. -/
structure GeckoCode where
  name : String
  enabled : Bool
  commands : List GeckoCommand
deriving DecidableEq, Repr

/-- The status string computed for a code entry (devkit_tools.py lines
429-434): DISABLED when the entry is disabled, OMITTED when it is enabled
but contains an unsupported command kind, ENABLED otherwise. -/
def codeStatus (code : GeckoCode) : String :=
  if code.enabled then
    if code.commands.any (fun c => !(SupportedGeckoCodetypes.contains c.codetype))
    then "OMITTED" else "ENABLED"
  else "DISABLED"

/-- Per-command metadata recorded for map diagnostics (the tuples appended
to `gecko_command_metadata`, devkit_tools.py lines 452 and 456). -/
structure GeckoCmdMeta where
  vaddr : Nat
  size : Nat
  status : String
  cmd : GeckoCommand
deriving DecidableEq, Repr

/-- Per-entry metadata (`gecko_code_metadata`, devkit_tools.py line 461). -/
structure GeckoCodeMeta where
  vaddr : Nat
  size : Nat
  status : String
  code : GeckoCode
  cmds : List GeckoCmdMeta
deriving DecidableEq, Repr

/-- The per-entry loop state: the entry's growing `geckoblob`, the image
being patched, and the per-command metadata collected so far. -/
structure GeckoState where
  blob : List Nat
  dol : DolFile
  meta : List GeckoCmdMeta
deriving DecidableEq, Repr

/-- The body of the per-command loop (devkit_tools.py lines 447-458).  For
an inline-assembly insert command: entries whose status is UNUSED or
OMITTED are recorded with placement address 0; otherwise the 4 bytes at
the origin address are overwritten with a branch to the fragment's
placement address (`write_branch`, modelled from the spec as writing
`assemble_branch` at the seek position), the payload minus its trailing
4-byte placeholder is appended to the blob, followed by a branch back to
origin-plus-4.  Any other command kind leaves the state untouched. -/
def processGeckoCommand (vaddress : Nat) (status : String)
    (st : GeckoState) (cmd : GeckoCommand) : GeckoState :=
  if cmd.codetype = .ASM_INSERT ∨ cmd.codetype = .ASM_INSERT_XOR then
    if status = "UNUSED" ∨ status = "OMITTED" then
      { st with meta := st.meta ++ [⟨0, cmd.value.length, status, cmd⟩] }
    else
      let origin := cmd.address ||| 0x80000000
      let dol1 := st.dol.writeBytes origin
        (assemble_branch origin (vaddress + st.blob.length) false)
      let meta1 := st.meta ++
        [⟨vaddress + st.blob.length, cmd.value.length, status, cmd⟩]
      let blob1 := st.blob ++ cmd.value.take (cmd.value.length - 4)
      let blob2 := blob1 ++
        assemble_branch (vaddress + blob1.length) ((cmd.address + 4) ||| 0x80000000) false
      { blob := blob2, dol := dol1, meta := meta1 }
  else st

/-- The whole-build state threaded through the code-entry loop: the
growing `datablob`, the image, and the per-entry metadata. -/
structure BuildState where
  datablob : List Nat
  dol : DolFile
  metadata : List GeckoCodeMeta
deriving DecidableEq, Repr

/-- The body of the per-entry loop (devkit_tools.py lines 429-461): fix
this entry's placement address at the current end of the blob, run the
per-command loop with an empty `geckoblob`, append the result to the
`datablob`, and record the entry metadata when any command metadata was
collected. -/
def processGeckoCode (base : Nat) (st : BuildState) (code : GeckoCode) :
    BuildState :=
  let status := codeStatus code
  let vaddress := base + st.datablob.length
  let inner := code.commands.foldl (processGeckoCommand vaddress status)
    ⟨[], st.dol, []⟩
  { datablob := st.datablob ++ inner.blob,
    dol := inner.dol,
    metadata := st.metadata ++
      (if inner.meta.isEmpty then []
       else [⟨vaddress, inner.blob.length, status, code, inner.meta⟩]) }

/-- The injection-relocation phase of `build_dol`: the per-entry loop over
the whole code table. -/
def geckoPhase (base : Nat) (st : BuildState) (table : List GeckoCode) :
    BuildState :=
  table.foldl (processGeckoCode base) st

/-- Base-address determination (devkit_tools.py lines 413-416): when no
base address is configured, round the ROM end up to the next 32-byte
boundary by adding 31 and masking the low five bits. -/
def computeBaseAddr (cfgBase : Option Nat) (dol : DolFile) : Nat :=
  match cfgBase with
  | some b => b
  | none => (find_rom_end dol + 31) &&& 0xFFFFFFE0

/-- The alignment warning condition (devkit_tools.py line 418). -/
def alignmentWarning (base : Nat) : Bool :=
  base % 32 != 0

/-- Zero-padding of the compiled project binary up to a 4-byte boundary
(devkit_tools.py lines 426-427). -/
def pad4 (bytes : List Nat) : List Nat :=
  bytes ++ List.replicate ((4 - bytes.length % 4) % 4) 0

/-- The initial `datablob` (devkit_tools.py lines 421-427): empty when the
project produced no binary, otherwise the binary padded to 4 bytes. -/
def initialBlob (bin : Option (List Nat)) : List Nat :=
  match bin with
  | none => []
  | some bytes => pad4 bytes

/-- Error message raised when no section can be allocated
(devkit_tools.py line 477). -/
def dolFullMsg : String :=
  "DOL is full!  Cannot allocate any new sections."

/-- The section-append step (devkit_tools.py lines 470-478), parametrised
by the external container's `MaxTextSections` / `MaxDataSections`
capacities: when the blob is non-empty, append it as a text section if
`len(textSections) <= maxText`, else as a data section if
`len(dataSections) <= maxData`, else fail fatally. -/
def appendSectionStep (maxText maxData : Nat) (base : Nat)
    (blob : List Nat) (dol : DolFile) : Except String DolFile :=
  if blob.length > 0 then
    if dol.textSections.length ≤ maxText then
      .ok { dol with textSections := dol.textSections ++ [⟨base, blob⟩] }
    else if dol.dataSections.length ≤ maxData then
      .ok { dol with dataSections := dol.dataSections ++ [⟨base, blob⟩] }
    else
      .error dolFullMsg
  else .ok dol

/-- The tagged union of the six hook variants held in `Project.hooks`. -/
inductive HookU
  | branch (h : BranchHook)
  | pointer (h : PointerHook)
  | str (h : StringHook)
  | file (h : FileHook)
  | imm16 (h : Immediate16Hook)
  | imm12 (h : Immediate12Hook)
deriving DecidableEq, Repr

/-- Variant dispatch for `hook.resolve(self.symbols)`.  File contents are
read through the external filesystem `fs`; only the immediate variants can
fail. -/
def HookU.resolve (fs : String → Option (List Nat)) (symbols : SymTab) :
    HookU → Except String HookU
  | .branch h => .ok (.branch (h.resolve symbols))
  | .pointer h => .ok (.pointer (h.resolve symbols))
  | .str h => .ok (.str (h.resolve symbols))
  | .file h => .ok (.file (h.resolve (fs h.filepath)))
  | .imm16 h => (h.resolve symbols).map .imm16
  | .imm12 h => (h.resolve symbols).map .imm12

/-- Variant dispatch for `hook.apply_dol(dol)`. -/
def HookU.apply_dol (dol : DolFile) : HookU → HookU × DolFile
  | .branch h => let r := h.apply_dol dol; (.branch r.1, r.2)
  | .pointer h => let r := h.apply_dol dol; (.pointer r.1, r.2)
  | .str h => let r := h.apply_dol dol; (.str r.1, r.2)
  | .file h => let r := h.apply_dol dol; (.file r.1, r.2)
  | .imm16 h => let r := h.apply_dol dol; (.imm16 r.1, r.2)
  | .imm12 h => let r := h.apply_dol dol; (.imm12 r.1, r.2)

/-- The hook loop of `build_dol` (devkit_tools.py lines 464-468): each
hook is resolved against the symbol table and applied to the image in
order. -/
def hookPhase (fs : String → Option (List Nat)) (symbols : SymTab) :
    List HookU → DolFile → Except String (List HookU × DolFile)
  | [], dol => .ok ([], dol)
  | h :: rest, dol => do
    let h1 ← h.resolve fs symbols
    let r := h1.apply_dol dol
    let tail ← hookPhase fs symbols rest r.2
    .ok (r.1 :: tail.1, tail.2)

/-- The outcome of `build_dol` that the claims observe: the chosen base
address, the final appended blob, the recorded injection metadata, the
hooks after resolution/application, and the final image. -/
structure BuildResult where
  base_addr : Nat
  datablob : List Nat
  metadata : List GeckoCodeMeta
  hooks : List HookU
  dol : DolFile
deriving Repr

/-- `Project.build_dol` (devkit_tools.py lines 409-484), embedded over the
already-decoded inputs: the base image, the optional compiled project
binary, the injectable code table, the hook list and the symbol table.
External collaborators appear as parameters: the container capacities
`maxText` / `maxData`, the code table's own apply mechanism `geckoApply`
(delegated, line 462), the optional arena patcher callback (lines
480-481), and the filesystem `fs`.  The pipeline: determine the base
address, build the initial blob, relocate the injections, delegate the
table's native application, resolve and apply the hooks, then append the
blob as a new section and run the arena patcher. -/
def build_dol (maxText maxData : Nat)
    (geckoApply : List GeckoCode → DolFile → DolFile)
    (arenaPatcher : Option (DolFile → Nat → DolFile))
    (fs : String → Option (List Nat))
    (cfgBase : Option Nat) (bin : Option (List Nat))
    (table : List GeckoCode) (hooks : List HookU) (symbols : SymTab)
    (dol : DolFile) : Except String BuildResult := do
  let base := computeBaseAddr cfgBase dol
  let st := geckoPhase base ⟨initialBlob bin, dol, []⟩ table
  let dol1 := geckoApply table st.dol
  let hooked ← hookPhase fs symbols hooks dol1
  let dol2 ← appendSectionStep maxText maxData base st.datablob hooked.2
  let dol3 :=
    if st.datablob.length > 0 then
      match arenaPatcher with
      | some p => p dol2 (base + st.datablob.length)
      | none => dol2
    else dol2
  .ok ⟨base, st.datablob, st.metadata, hooked.1, dol3⟩

/-- Specification-side definition (spec section 4.2, used to characterise
the blob layout): the bytes a single code entry contributes to the blob,
as a pure function of the entry's placement address, its status and its
commands — the per-command loop of `processGeckoCommand` restricted to its
blob component. -/
def commandBlobStep (vaddress : Nat) (status : String)
    (blob : List Nat) (cmd : GeckoCommand) : List Nat :=
  if cmd.codetype = .ASM_INSERT ∨ cmd.codetype = .ASM_INSERT_XOR then
    if status = "UNUSED" ∨ status = "OMITTED" then blob
    else
      let blob1 := blob ++ cmd.value.take (cmd.value.length - 4)
      blob1 ++
        assemble_branch (vaddress + blob1.length) ((cmd.address + 4) ||| 0x80000000) false
  else blob

/-- Specification-side definition: the whole `geckoblob` of one entry. -/
def codeBlob (vaddress : Nat) (status : String) (cmds : List GeckoCommand) :
    List Nat :=
  cmds.foldl (commandBlobStep vaddress status) []

/-- Specification-side definition: the concatenated relocated fragments of
the whole table, given the base address and the number of blob bytes that
precede them. -/
def geckoBlobs (base : Nat) : Nat → List GeckoCode → List Nat
  | _, [] => []
  | startLen, code :: rest =>
    let b := codeBlob (base + startLen) (codeStatus code) code.commands
    b ++ geckoBlobs base (startLen + b.length) rest

/-- Specification-side definition (spec section 4.3): the end of the
highest-addressed existing section of the image (0 when there are no
sections). -/
def specMaxSectionEnd (dol : DolFile) : Nat :=
  dol.allSections.foldl (fun acc s => max acc (s.address + s.data.length)) 0

/-- Specification-side definition (spec section 8): reinterpret a 16-bit
field as a signed 16-bit quantity. -/
def specSigned16 (field : Nat) : Int :=
  if field < 2 ^ 15 then (field : Int) else (field : Int) - 2 ^ 16

theorem mask_field_lt (v : Int) (bits : Nat) (s : Bool) :
    mask_field v bits s < 2 ^ bits := by
  unfold mask_field
  show (v % ((2 : Int) ^ bits)).toNat < 2 ^ bits
  rw [show ((2 : Int) ^ bits) = ((2 ^ bits : Nat) : Int) by push_cast; ring]
  have h1 : (0 : Int) < ((2 ^ bits : Nat) : Int) := by positivity
  have h2 := Int.emod_lt_of_pos v h1
  have h3 := Int.emod_nonneg v (ne_of_gt h1)
  omega

theorem mask_field_ofNat (n bits : Nat) (s : Bool) :
    mask_field (n : Int) bits s = n % 2 ^ bits := by
  unfold mask_field
  show ((n : Int) % ((2 : Int) ^ bits)).toNat = n % 2 ^ bits
  rw [show ((2 : Int) ^ bits) = ((2 ^ bits : Nat) : Int) by push_cast; ring]
  omega

theorem lor_mul_two_pow_of_lt (x a k : Nat) (h : x < 2 ^ k) :
    x ||| 2 ^ k * a = x + 2 ^ k * a := by
  rw [Nat.or_comm, ← Nat.mul_add_lt_is_or h a, Nat.add_comm]

theorem lor_high_bit (x : Nat) (h : x < 2 ^ 31) :
    x ||| 0x80000000 = x + 0x80000000 := by
  have h1 : (0x80000000 : Nat) = 2 ^ 31 * 1 := by norm_num
  rw [h1, lor_mul_two_pow_of_lt x 1 31 h]

theorem pack12_eq_add (x iv wv : Nat) (hx : x < 2 ^ 12) (hiv : iv < 2)
    (hwv : wv < 8) :
    x ||| iv <<< 12 ||| wv <<< 13 = x + iv * 2 ^ 12 + wv * 2 ^ 13 := by
  have h1 : iv <<< 12 = 2 ^ 12 * iv := by
    rw [Nat.shiftLeft_eq]; ring
  have h2 : wv <<< 13 = 2 ^ 13 * wv := by
    rw [Nat.shiftLeft_eq]; ring
  rw [h1, h2, lor_mul_two_pow_of_lt x iv 12 hx,
    lor_mul_two_pow_of_lt (x + 2 ^ 12 * iv) wv 13 (by omega)]
  ring

theorem and_mask_align32 (y : Nat) (hy : y < 2 ^ 32) :
    y &&& 0xFFFFFFE0 = 2 ^ 5 * (y / 2 ^ 5) := by
  apply Nat.eq_of_testBit_eq
  intro j
  have hM : (0xFFFFFFE0 : Nat) = (2 ^ 27 - 1) <<< 5 := by
    rw [Nat.shiftLeft_eq]; norm_num
  have hdiv : y / 2 ^ 5 = y >>> 5 := (Nat.shiftRight_eq_div_pow y 5).symm
  rw [hM, hdiv, Nat.testBit_and, Nat.testBit_shiftLeft,
    Nat.testBit_two_pow_sub_one, Nat.testBit_mul_pow_two]
  rcases Nat.lt_or_ge j 5 with h5 | h5
  · simp [Nat.not_le_of_lt h5]
  · rcases Nat.lt_or_ge j 32 with h32 | h32
    · have hj : 5 + (j - 5) = j := by omega
      simp [h5, Nat.testBit_shiftRight, hj, show j - 5 < 27 by omega]
    · have hj : 5 + (j - 5) = j := by omega
      have hyj : y < 2 ^ j :=
        lt_of_lt_of_le hy (Nat.pow_le_pow_right (by norm_num) h32)
      simp [Nat.testBit_shiftRight, hj, Nat.testBit_lt_two_pow hyj,
        show ¬(j - 5 < 27) by omega]

theorem sectionWriteByte_address (s : DolSection) (a b : Nat) :
    (sectionWriteByte s a b).address = s.address := by
  unfold sectionWriteByte
  split <;> rfl

theorem sectionWriteByte_data_length (s : DolSection) (a b : Nat) :
    (sectionWriteByte s a b).data.length = s.data.length := by
  unfold sectionWriteByte
  split <;> simp

theorem sectionContains_writeByte (s : DolSection) (a b x : Nat) :
    sectionContains (sectionWriteByte s a b) x = sectionContains s x := by
  unfold sectionContains
  rw [sectionWriteByte_address, sectionWriteByte_data_length]

theorem readByteSecs_writeByteSecs_same (l : List DolSection) (a b : Nat)
    (hm : l.any (fun s => sectionContains s a) = true) :
    readByteSecs (writeByteSecs l a b) a = some b := by
  induction l with
  | nil => simp at hm
  | cons s rest ih =>
    simp only [writeByteSecs, List.map_cons, readByteSecs,
      sectionContains_writeByte]
    cases hc : sectionContains s a with
    | false =>
      rw [if_neg Bool.false_ne_true]
      apply ih
      simp only [List.any_cons, hc, Bool.false_or] at hm
      exact hm
    | true =>
      simp only [hc]
      rw [if_pos trivial]
      unfold sectionWriteByte
      rw [if_pos hc]
      unfold sectionContains at hc
      simp only [decide_eq_true_eq] at hc
      have hlt : a - s.address < s.data.length := by omega
      simp [List.get?_eq_getElem?, List.getElem?_set_self hlt]

theorem readByteSecs_writeByteSecs_ne (l : List DolSection) (a b x : Nat)
    (hx : x ≠ a) :
    readByteSecs (writeByteSecs l a b) x = readByteSecs l x := by
  induction l with
  | nil => rfl
  | cons s rest ih =>
    simp only [writeByteSecs, List.map_cons, readByteSecs,
      sectionContains_writeByte]
    cases hc : sectionContains s x with
    | false =>
      rw [if_neg Bool.false_ne_true, if_neg Bool.false_ne_true]
      exact ih
    | true =>
      simp only [hc]
      rw [if_pos trivial, if_pos trivial, sectionWriteByte_address]
      unfold sectionWriteByte
      split
      · next hca =>
        unfold sectionContains at hc hca
        simp only [decide_eq_true_eq] at hc hca
        simp [List.get?_eq_getElem?,
          List.getElem?_set_ne (by omega : a - s.address ≠ x - s.address)]
      · rfl

theorem writeByteSecs_append (l1 l2 : List DolSection) (a b : Nat) :
    writeByteSecs (l1 ++ l2) a b = writeByteSecs l1 a b ++ writeByteSecs l2 a b := by
  unfold writeByteSecs
  exact List.map_append _ l1 l2

theorem DolFile.allSections_writeByte (dol : DolFile) (a b : Nat) :
    (dol.writeByte a b).allSections = writeByteSecs dol.allSections a b := by
  unfold DolFile.writeByte DolFile.allSections
  rw [writeByteSecs_append]

theorem DolFile.is_mapped_writeByte (dol : DolFile) (a b x : Nat) :
    (dol.writeByte a b).is_mapped x = dol.is_mapped x := by
  unfold DolFile.is_mapped
  rw [DolFile.allSections_writeByte]
  unfold writeByteSecs
  rw [List.any_map]
  congr 1
  funext s
  simp only [Function.comp_apply]
  exact sectionContains_writeByte s a b x

theorem DolFile.readByte_writeByte_same (dol : DolFile) (a b : Nat)
    (hm : dol.is_mapped a = true) :
    (dol.writeByte a b).readByte a = some b := by
  unfold DolFile.readByte
  rw [DolFile.allSections_writeByte]
  exact readByteSecs_writeByteSecs_same _ a b hm

theorem DolFile.readByte_writeByte_ne (dol : DolFile) (a b x : Nat)
    (hx : x ≠ a) :
    (dol.writeByte a b).readByte x = dol.readByte x := by
  unfold DolFile.readByte
  rw [DolFile.allSections_writeByte]
  exact readByteSecs_writeByteSecs_ne _ a b x hx

theorem DolFile.is_mapped_writeBytes (dol : DolFile) (bs : List Nat)
    (a x : Nat) : (dol.writeBytes a bs).is_mapped x = dol.is_mapped x := by
  induction bs generalizing dol a with
  | nil => rfl
  | cons b rest ih =>
    show ((dol.writeByte a b).writeBytes (a + 1) rest).is_mapped x = _
    rw [ih, DolFile.is_mapped_writeByte]

theorem DolFile.readByte_writeBytes_lt (dol : DolFile) (bs : List Nat)
    (a x : Nat) (hx : x < a) :
    (dol.writeBytes a bs).readByte x = dol.readByte x := by
  induction bs generalizing dol a with
  | nil => rfl
  | cons b rest ih =>
    show ((dol.writeByte a b).writeBytes (a + 1) rest).readByte x = _
    rw [ih _ _ (by omega), DolFile.readByte_writeByte_ne _ _ _ _ (by omega)]

theorem DolFile.readBytes_writeBytes (dol : DolFile) (bs : List Nat) (a : Nat)
    (hm : ∀ k, k < bs.length → dol.is_mapped (a + k) = true) :
    (dol.writeBytes a bs).readBytes a bs.length = bs.map some := by
  induction bs generalizing dol a with
  | nil => rfl
  | cons b rest ih =>
    show ((dol.writeByte a b).writeBytes (a + 1) rest).readBytes a
      (rest.length + 1) = some b :: rest.map some
    unfold DolFile.readBytes
    have h1 : ((dol.writeByte a b).writeBytes (a + 1) rest).readByte a = some b := by
      rw [DolFile.readByte_writeBytes_lt _ _ _ _ (by omega)]
      apply DolFile.readByte_writeByte_same
      have h0 := hm 0 (by simp)
      simpa using h0
    have h2 : ((dol.writeByte a b).writeBytes (a + 1) rest).readBytes (a + 1)
        rest.length = rest.map some := by
      apply ih
      intro k hk
      rw [DolFile.is_mapped_writeByte]
      have hk1 := hm (k + 1) (by simp; omega)
      have hadd : a + (k + 1) = a + 1 + k := by omega
      rw [hadd] at hk1
      exact hk1
    rw [h1, h2]

theorem processGeckoCommand_blob (v : Nat) (s : String) (st : GeckoState)
    (c : GeckoCommand) :
    (processGeckoCommand v s st c).blob = commandBlobStep v s st.blob c := by
  unfold processGeckoCommand commandBlobStep
  split
  · split <;> rfl
  · rfl

theorem foldl_processGeckoCommand_blob (v : Nat) (s : String)
    (cmds : List GeckoCommand) (st : GeckoState) :
    (cmds.foldl (processGeckoCommand v s) st).blob =
      cmds.foldl (commandBlobStep v s) st.blob := by
  induction cmds generalizing st with
  | nil => rfl
  | cons c rest ih =>
    rw [List.foldl_cons, List.foldl_cons, ih, processGeckoCommand_blob]

theorem processGeckoCode_datablob (base : Nat) (st : BuildState)
    (code : GeckoCode) :
    (processGeckoCode base st code).datablob =
      st.datablob ++
        codeBlob (base + st.datablob.length) (codeStatus code) code.commands := by
  unfold processGeckoCode codeBlob
  simp only [foldl_processGeckoCommand_blob]

theorem geckoPhase_datablob (base : Nat) (table : List GeckoCode)
    (st : BuildState) :
    (geckoPhase base st table).datablob =
      st.datablob ++ geckoBlobs base st.datablob.length table := by
  induction table generalizing st with
  | nil =>
    unfold geckoPhase geckoBlobs
    simp
  | cons code rest ih =>
    unfold geckoPhase at ih ⊢
    rw [List.foldl_cons, ih, processGeckoCode_datablob, List.append_assoc]
    have hcons : geckoBlobs base st.datablob.length (code :: rest) =
        codeBlob (base + st.datablob.length) (codeStatus code) code.commands ++
          geckoBlobs base (st.datablob.length +
            (codeBlob (base + st.datablob.length) (codeStatus code)
              code.commands).length) rest := rfl
    rw [hcons]
    congr 2
    simp

theorem foldl_romEnd_eq_foldl_max (l : List DolSection) (a : Nat) :
    l.foldl (fun rom_end s =>
        if s.address + s.data.length > rom_end then s.address + s.data.length
        else rom_end) a =
      l.foldl (fun acc s => max acc (s.address + s.data.length)) a := by
  induction l generalizing a with
  | nil => rfl
  | cons s rest ih =>
    rw [List.foldl_cons, List.foldl_cons, ih]
    congr 1
    split <;> omega

theorem foldl_max_from_init (l : List DolSection) (a : Nat) :
    l.foldl (fun acc s => max acc (s.address + s.data.length)) a =
      max a (l.foldl (fun acc s => max acc (s.address + s.data.length)) 0) := by
  induction l generalizing a with
  | nil => simp
  | cons s rest ih =>
    rw [List.foldl_cons, List.foldl_cons, ih, ih (max 0 (s.address + s.data.length))]
    omega

theorem find_rom_end_eq_max (dol : DolFile) :
    find_rom_end dol = max 0x80000000 (specMaxSectionEnd dol) := by
  unfold find_rom_end specMaxSectionEnd
  rw [foldl_romEnd_eq_foldl_max, foldl_max_from_init]

/-- C10: For any BranchHook, PointerHook, Immediate16Hook or
Immediate12Hook whose resolution computed a payload numerically equal to
zero, `apply_dol` leaves the image (and the hook, including its applied
flag) unchanged, and `write_geckocommand` emits nothing — exactly the
behaviour of an unresolved hook, because application is gated on the
payload's truthiness (`if self.data:`) rather than on a resolved flag. -/
theorem zeroPayloadActsUnresolved (dol : DolFile)
    (bh : BranchHook) (ph : PointerHook)
    (h16 : Immediate16Hook) (h12 : Immediate12Hook)
    (hb : bh.data = some 0) (hp : ph.data = some 0)
    (h6 : h16.data = some 0) (h2 : h12.data = some 0) :
    bh.apply_dol dol = (bh, dol) ∧ bh.write_geckocommand = (bh, none) ∧
    ph.apply_dol dol = (ph, dol) ∧ ph.write_geckocommand = (ph, none) ∧
    h16.apply_dol dol = (h16, dol) ∧ h16.write_geckocommand = (h16, none) ∧
    h12.apply_dol dol = (h12, dol) ∧ h12.write_geckocommand = (h12, none) ∧
    dataTruthy bh.data = dataTruthy none := by
  unfold BranchHook.apply_dol BranchHook.write_geckocommand
    PointerHook.apply_dol PointerHook.write_geckocommand
    Immediate16Hook.apply_dol Immediate16Hook.write_geckocommand
    Immediate12Hook.apply_dol Immediate12Hook.write_geckocommand
  rw [hb, hp, h6, h2]
  simp [dataTruthy, hb]

theorem zeroPayloadActsUnresolvedWitness :
    BranchHook.apply_dol ⟨0x80001000, "f", false, false, some 0⟩ ⟨[], []⟩ =
      (⟨0x80001000, "f", false, false, some 0⟩, ⟨[], []⟩) ∧
    PointerHook.write_geckocommand ⟨0x80001000, "f", false, some 0⟩ =
      (⟨0x80001000, "f", false, some 0⟩, none) := by
  have h := zeroPayloadActsUnresolved ⟨[], []⟩
    ⟨0x80001000, "f", false, false, some 0⟩ ⟨0x80001000, "f", false, some 0⟩
    ⟨0x80001000, "f", "@l", false, some 0⟩ ⟨0x80001000, 0, 0, "f", "@l", false, some 0⟩
    rfl rfl rfl rfl
  exact ⟨h.1, h.2.2.2.1⟩

/-- C3 counterexample: a String hook resolved against an EMPTY symbol
table still computes its payload and `apply_dol` mutates the image at its
(mapped) target address, marking the hook applied — so the claim that
every hook variant is left unresolved, payload absent, with no image
write, fails for the String variant. -/
theorem stringHookWritesWithoutSymbols :
    ((StringHook.resolve ⟨0x80003000, [72, 105], none, false, []⟩ []).apply_dol
        ⟨[⟨0x80003000, [0, 0, 0, 0]⟩], []⟩).2.readByte 0x80003000 = some 72 ∧
    DolFile.readByte ⟨[⟨0x80003000, [0, 0, 0, 0]⟩], []⟩ 0x80003000 = some 0 ∧
    ((StringHook.resolve ⟨0x80003000, [72, 105], none, false, []⟩ []).apply_dol
        ⟨[⟨0x80003000, [0, 0, 0, 0]⟩], []⟩).1.good = true ∧
    (StringHook.resolve ⟨0x80003000, [72, 105], none, false, []⟩ []).data =
      [72, 105, 0] := by
  decide

/-- C3 amended: for the symbol-referencing hook variants (Branch, Pointer,
Immediate16, Immediate12), resolving a fresh hook against a symbol table
lacking the referenced name leaves the hook unchanged with its payload
absent, raises no error, and a subsequent `apply_dol` leaves both the hook
and the image untouched.  String and File hooks reference no symbol name:
a String hook computes its payload independently of the symbol table (and
writes it whenever its target is mapped, see the counterexample), and a
File hook whose file cannot be opened keeps an empty payload so that its
`apply_dol` write leaves the image bytes unchanged. -/
theorem symbolHooksMissTolerant (symbols : SymTab) (name : String)
    (addr wv iv : Nat) (lk : Bool) (modifier : String) (dol : DolFile)
    (hmiss : lookupSym symbols name = none) :
    (BranchHook.resolve ⟨addr, name, lk, false, none⟩ symbols =
        ⟨addr, name, lk, false, none⟩ ∧
      BranchHook.apply_dol ⟨addr, name, lk, false, none⟩ dol =
        (⟨addr, name, lk, false, none⟩, dol)) ∧
    (PointerHook.resolve ⟨addr, name, false, none⟩ symbols =
        ⟨addr, name, false, none⟩ ∧
      PointerHook.apply_dol ⟨addr, name, false, none⟩ dol =
        (⟨addr, name, false, none⟩, dol)) ∧
    (Immediate16Hook.resolve ⟨addr, name, modifier, false, none⟩ symbols =
        .ok ⟨addr, name, modifier, false, none⟩ ∧
      Immediate16Hook.apply_dol ⟨addr, name, modifier, false, none⟩ dol =
        (⟨addr, name, modifier, false, none⟩, dol)) ∧
    (Immediate12Hook.resolve ⟨addr, wv, iv, name, modifier, false, none⟩ symbols =
        .ok ⟨addr, wv, iv, name, modifier, false, none⟩ ∧
      Immediate12Hook.apply_dol ⟨addr, wv, iv, name, modifier, false, none⟩ dol =
        (⟨addr, wv, iv, name, modifier, false, none⟩, dol)) ∧
    (∀ sh : StringHook, StringHook.resolve sh symbols = StringHook.resolve sh []) ∧
    (∀ fh : FileHook, FileHook.resolve fh none = fh) ∧
    (∀ fp st sp ms,
      (FileHook.apply_dol ⟨addr, fp, st, sp, ms, false, []⟩ dol).2 = dol) := by
  refine ⟨⟨?_, ?_⟩, ⟨?_, ?_⟩, ⟨?_, ?_⟩, ⟨?_, ?_⟩, ?_, ?_, ?_⟩
  · unfold BranchHook.resolve
    rw [hmiss]
  · rfl
  · unfold PointerHook.resolve
    rw [hmiss]
  · rfl
  · unfold Immediate16Hook.resolve
    rw [hmiss]
  · rfl
  · unfold Immediate12Hook.resolve
    rw [hmiss]
  · rfl
  · intro sh
    rfl
  · intro fh
    rfl
  · intro fp st sp ms
    unfold FileHook.apply_dol
    split <;> rfl

theorem symbolHooksMissTolerantWitness :
    BranchHook.resolve ⟨0x80001000, "f", false, false, none⟩ [] =
      ⟨0x80001000, "f", false, false, none⟩ ∧
    Immediate12Hook.resolve ⟨0x80001000, 0, 0, "f", "@l", false, none⟩ [] =
      .ok ⟨0x80001000, 0, 0, "f", "@l", false, none⟩ := by
  have h := symbolHooksMissTolerant [] "f" 0x80001000 0 0 false "@l" ⟨[], []⟩ rfl
  exact ⟨h.1.1, h.2.2.2.1.1⟩

/-- C8: resolving an Immediate16Hook or Immediate12Hook whose symbol is
present but whose modifier is not one of the recognized forms is NOT a
non-fatal miss in the code as written: after printing the unknown-modifier
diagnostic, the resolve method unconditionally re-masks (and, for
Immediate12, bit-packs) the still-absent payload, which faults.  This
theorem evaluates the embedded resolve at such an input and shows the
error escaping. -/
theorem unknownModifierRaises :
    Immediate16Hook.resolve ⟨0x80001000, "foo", "@x", false, none⟩
      [("foo", ⟨some 0x80003000⟩)] = .error typeErrMsg ∧
    Immediate12Hook.resolve ⟨0x80001000, 0, 0, "foo", "@x", false, none⟩
      [("foo", ⟨some 0x80003000⟩)] = .error typeErrMsg :=
  ⟨rfl, rfl⟩

/-- C4: the section-append step with the code-section count already AT
capacity (7 sections with `MaxTextSections = 7`) and ample data-section
capacity still appends an 8th TEXT section — the guards use a non-strict
comparison, so the claimed fall-through to a data-bearing section (and,
with both capacities exhausted, the fatal "image full" error) happens one
section too late. -/
theorem textSectionAppendedPastCapacity :
    (appendSectionStep 7 11 0x80004000 [0]
        ⟨[⟨0x80000000, [0]⟩, ⟨0x80000100, [0]⟩, ⟨0x80000200, [0]⟩,
          ⟨0x80000300, [0]⟩, ⟨0x80000400, [0]⟩, ⟨0x80000500, [0]⟩,
          ⟨0x80000600, [0]⟩], []⟩).map
      (fun d => (d.textSections.length, d.dataSections.length)) = .ok (8, 0) ∧
    (appendSectionStep 7 11 0x80004000 [0]
        ⟨List.replicate 8 ⟨0x80000000, [0]⟩, List.replicate 12 ⟨0x80000000, [0]⟩⟩) =
      .error dolFullMsg :=
  ⟨rfl, rfl⟩

/-- C1: a DISABLED code entry containing an inline-assembly insert command
is NOT skipped by the relocation loop: the loop only skips the (never
assigned) status UNUSED and the status OMITTED, so a disabled entry gets a
branch written at its origin address, has its payload appended to the
blob, and is recorded with a non-zero placement address — against the
claim (and the skip applied to OMITTED entries at devkit_tools.py line
450, which names DISABLED in neither arm). -/
theorem disabledEntryStillRelocated :
    (geckoPhase 0x80004000
        ⟨[], ⟨[⟨0x80003000, [0, 0, 0, 0, 0, 0, 0, 0]⟩], []⟩, []⟩
        [⟨"d", false, [⟨.ASM_INSERT, 0x3000, [1, 2, 3, 4, 0, 0, 0, 0]⟩]⟩]).datablob.length = 8 ∧
    (geckoPhase 0x80004000
        ⟨[], ⟨[⟨0x80003000, [0, 0, 0, 0, 0, 0, 0, 0]⟩], []⟩, []⟩
        [⟨"d", false, [⟨.ASM_INSERT, 0x3000, [1, 2, 3, 4, 0, 0, 0, 0]⟩]⟩]).metadata.map
      (fun m => (m.vaddr, m.status, m.cmds.map (fun c => (c.vaddr, c.size)))) =
      [(0x80004000, "DISABLED", [(0x80004000, 8)])] ∧
    (geckoPhase 0x80004000
        ⟨[], ⟨[⟨0x80003000, [0, 0, 0, 0, 0, 0, 0, 0]⟩], []⟩, []⟩
        [⟨"d", false, [⟨.ASM_INSERT, 0x3000, [1, 2, 3, 4, 0, 0, 0, 0]⟩]⟩]).dol.readBytes
        0x80003000 4 =
      (assemble_branch 0x80003000 0x80004000 false).map some ∧
    assemble_branch 0x80003000 0x80004000 false ≠ [0, 0, 0, 0] := by
  decide

/-- C9 counterexample: the auto-detected base address is NOT in general
the smallest 32-byte-aligned address at or above the end of the
highest-addressed section — `find_rom_end` floors the section scan at
0x80000000, so for an image whose only section ends at 0x1004 the claimed
value would be 0x1020 while the code computes 0x80000000. -/
theorem autoBaseFloorCounterexample :
    computeBaseAddr none ⟨[⟨0x1000, [0, 0, 0, 0]⟩], []⟩ = 0x80000000 ∧
    specMaxSectionEnd ⟨[⟨0x1000, [0, 0, 0, 0]⟩], []⟩ = 0x1004 ∧
    (0x1020 : Nat) % 32 = 0 ∧ (0x1004 : Nat) ≤ 0x1020 ∧
    computeBaseAddr none ⟨[⟨0x1000, [0, 0, 0, 0]⟩], []⟩ ≠ 0x1020 ∧
    ¬ computeBaseAddr none ⟨[⟨0x1000, [0, 0, 0, 0]⟩], []⟩ ≤ 0x1020 := by
  decide

/-- C9 amended: when no base address is configured (and the image's ROM
end keeps the computation inside 32 bits), `build_dol` sets the base
address to the smallest 32-byte-aligned address at or above the MAXIMUM of
0x80000000 and the end of the highest-addressed existing section — the
auto-detection floors at the ROM base 0x80000000 — and no alignment
warning is emitted for it.  In particular, for an image whose only section
occupies the interval from 0x80003000 to 0x80004000, the computed base
address is 0x80004000 with no alignment warning. -/
theorem autoBaseAddrAligned (dol : DolFile)
    (hsz : find_rom_end dol + 31 < 2 ^ 32) :
    computeBaseAddr none dol % 32 = 0 ∧
    max 0x80000000 (specMaxSectionEnd dol) ≤ computeBaseAddr none dol ∧
    (∀ y, y % 32 = 0 → max 0x80000000 (specMaxSectionEnd dol) ≤ y →
      computeBaseAddr none dol ≤ y) ∧
    alignmentWarning (computeBaseAddr none dol) = false ∧
    computeBaseAddr none ⟨[⟨0x80003000, List.replicate 0x1000 0⟩], []⟩ =
      0x80004000 ∧
    alignmentWarning 0x80004000 = false := by
  have hmask : computeBaseAddr none dol = 2 ^ 5 * ((find_rom_end dol + 31) / 2 ^ 5) := by
    unfold computeBaseAddr
    exact and_mask_align32 _ hsz
  have hfr := find_rom_end_eq_max dol
  refine ⟨?_, ?_, ?_, ?_, ?_, ?_⟩
  · omega
  · omega
  · intro y hy hge
    omega
  · unfold alignmentWarning
    simp only [bne_eq_false_iff_eq]
    omega
  · have hgen : ∀ l : List Nat, l.length = 0x1000 →
        find_rom_end ⟨[⟨0x80003000, l⟩], []⟩ = 0x80004000 := by
      intro l hl
      unfold find_rom_end DolFile.allSections
      rw [List.append_nil, List.foldl_cons, List.foldl_nil]
      simp only [hl]
      norm_num
    have hbase : computeBaseAddr none ⟨[⟨0x80003000, List.replicate 0x1000 0⟩], []⟩ =
        (find_rom_end ⟨[⟨0x80003000, List.replicate 0x1000 0⟩], []⟩ + 31) &&&
          0xFFFFFFE0 := rfl
    rw [hbase, hgen (List.replicate 0x1000 0) (List.length_replicate _ _)]
    decide
  · rfl

theorem autoBaseAddrAlignedWitness :
    computeBaseAddr none ⟨[], []⟩ % 32 = 0 :=
  (autoBaseAddrAligned ⟨[], []⟩ (by decide)).1

theorem imm16_resolve_some (h : Immediate16Hook) (symbols : SymTab)
    (entry : SymEntry) (hlook : lookupSym symbols h.sym_name = some entry) :
    h.resolve symbols =
      (immediate_modifier_step symbols h.modifier entry h.data).bind
        (fun d =>
          match d with
          | none => .error typeErrMsg
          | some x => .ok { h with data := some (mask_field (x : Int) 16 true) }) := by
  unfold Immediate16Hook.resolve
  rw [hlook]
  rfl

theorem imm12_resolve_some (h : Immediate12Hook) (symbols : SymTab)
    (entry : SymEntry) (hlook : lookupSym symbols h.sym_name = some entry) :
    h.resolve symbols =
      (immediate_modifier_step symbols h.modifier entry h.data).bind
        (fun d =>
          match d with
          | none => .error typeErrMsg
          | some x => .ok { h with data := some (imm12pack x h.i h.w) }) := by
  unfold Immediate12Hook.resolve
  rw [hlook]
  rfl

/-- C6: whenever the modifier dispatch of an Immediate12Hook produces a
raw value, the resolved payload is that value masked to 12 bits in bits
0-11, the caller-supplied `i` flag masked to 1 bit in bit 12, and the
caller-supplied `w` field masked to 3 bits in bits 13-15; decoding the
emitted halfword by those bit positions recovers exactly the three
sub-fields, and the halfword fits in 16 bits. -/
theorem imm12FieldPacking (symbols : SymTab) (h12 : Immediate12Hook)
    (entry : SymEntry) (m : Nat)
    (hlook : lookupSym symbols h12.sym_name = some entry)
    (hstep : immediate_modifier_step symbols h12.modifier entry h12.data =
      .ok (some m)) :
    h12.resolve symbols = .ok { h12 with data := some (imm12pack m h12.i h12.w) } ∧
    imm12pack m h12.i h12.w &&& (2 ^ 12 - 1) = mask_field (m : Int) 12 true ∧
    (imm12pack m h12.i h12.w >>> 12) &&& 1 = mask_field (h12.i : Int) 1 false ∧
    (imm12pack m h12.i h12.w >>> 13) &&& (2 ^ 3 - 1) = mask_field (h12.w : Int) 3 false ∧
    imm12pack m h12.i h12.w < 2 ^ 16 := by
  have hx := mask_field_lt (m : Int) 12 true
  have hiv := mask_field_lt (h12.i : Int) 1 false
  have hwv := mask_field_lt (h12.w : Int) 3 false
  have hpackdef : imm12pack m h12.i h12.w =
      mask_field (m : Int) 12 true +
        mask_field (h12.i : Int) 1 false * 2 ^ 12 +
        mask_field (h12.w : Int) 3 false * 2 ^ 13 := by
    unfold imm12pack
    exact pack12_eq_add _ _ _ hx (by omega) (by omega)
  refine ⟨?_, ?_, ?_, ?_, ?_⟩
  · rw [imm12_resolve_some h12 symbols entry hlook, hstep]
    rfl
  · rw [hpackdef, Nat.and_pow_two_sub_one_eq_mod]
    omega
  · rw [hpackdef, Nat.shiftRight_eq_div_pow, Nat.and_one_is_mod]
    omega
  · rw [hpackdef, Nat.shiftRight_eq_div_pow, Nat.and_pow_two_sub_one_eq_mod]
    omega
  · rw [hpackdef]
    omega

theorem imm12FieldPackingWitness :
    (Immediate12Hook.resolve ⟨0x80001000, 5, 1, "foo", "@l", false, none⟩
        [("foo", ⟨some 0x80123456⟩)]).map (fun h => h.data) =
      .ok (some 0xB456) := by
  obtain ⟨he, hd⟩ := imm12FieldPacking [("foo", ⟨some 0x80123456⟩)]
    ⟨0x80001000, 5, 1, "foo", "@l", false, none⟩ ⟨some 0x80123456⟩ 0x3456
    rfl rfl
  rw [he]
  show Except.ok (some (imm12pack 0x3456 1 5)) = Except.ok (some 0xB456)
  rfl

theorem immediate_modifier_step_sda (symbols : SymTab) (entry : SymEntry)
    (data0 : Option Nat) (A B : Nat) (hv : entry.st_value = some A)
    (hbase : lookupSym symbols "_SDA_BASE_" = some ⟨some B⟩) :
    immediate_modifier_step symbols "@sda" entry data0 =
      .ok (some (mask_field ((A : Int) - (B : Int)) 16 true)) := by
  unfold immediate_modifier_step
  rw [if_neg (by decide), if_neg (by decide), if_neg (by decide), if_pos rfl,
    hbase]
  show (getVal entry).bind
    (fun v => Except.ok (some (mask_field ((v : Int) - (B : Int)) 16 true))) = _
  rw [show getVal entry = .ok A from by unfold getVal; rw [hv]]
  rfl

theorem immediate_modifier_step_sda_missing (symbols : SymTab)
    (entry : SymEntry) (data0 : Option Nat)
    (hbase : lookupSym symbols "_SDA_BASE_" = some ⟨none⟩) :
    immediate_modifier_step symbols "@sda" entry data0 = .error sdaErrMsg := by
  unfold immediate_modifier_step
  rw [if_neg (by decide), if_neg (by decide), if_neg (by decide), if_pos rfl,
    hbase]

theorem immediate_modifier_step_sda2 (symbols : SymTab) (entry : SymEntry)
    (data0 : Option Nat) (A B : Nat) (hv : entry.st_value = some A)
    (hbase : lookupSym symbols "_SDA2_BASE_" = some ⟨some B⟩) :
    immediate_modifier_step symbols "@sda2" entry data0 =
      .ok (some (mask_field ((A : Int) - (B : Int)) 16 true)) := by
  unfold immediate_modifier_step
  rw [if_neg (by decide), if_neg (by decide), if_neg (by decide),
    if_neg (by decide), if_pos rfl, hbase]
  show (getVal entry).bind
    (fun v => Except.ok (some (mask_field ((v : Int) - (B : Int)) 16 true))) = _
  rw [show getVal entry = .ok A from by unfold getVal; rw [hv]]
  rfl

theorem immediate_modifier_step_sda2_missing (symbols : SymTab)
    (entry : SymEntry) (data0 : Option Nat)
    (hbase : lookupSym symbols "_SDA2_BASE_" = some ⟨none⟩) :
    immediate_modifier_step symbols "@sda2" entry data0 = .error sda2ErrMsg := by
  unfold immediate_modifier_step
  rw [if_neg (by decide), if_neg (by decide), if_neg (by decide),
    if_neg (by decide), if_pos rfl, hbase]

/-- C7 counterexample: for an Immediate12Hook with the `@sda` modifier,
the resolved 16-bit field does NOT equal the signed 16-bit reinterpretation
of the symbol-minus-base offset: the offset 0x1234 is further masked to 12
bits (payload 0x234) before the `i`/`w` sub-fields are packed in, so the
claim holds only for the Immediate16 variant. -/
theorem imm12SdaFieldNotFull16 :
    (Immediate12Hook.resolve ⟨0x80002000, 0, 0, "foo", "@sda", false, none⟩
        [("foo", ⟨some 0x80001234⟩), ("_SDA_BASE_", ⟨some 0x80000000⟩)]).map
      (fun h => h.data) = .ok (some 0x234) ∧
    specSigned16 0x234 ≠ (0x80001234 : Int) - 0x80000000 := by
  constructor
  · rfl
  · decide

/-- C7 amended: for an Immediate16Hook with `@sda` (or `@sda2`) whose
symbol resolves to address A and whose configured base is B, the resolved
16-bit field equals (A-B) masked to 16 bits, i.e. (A-B) reinterpreted as a
signed 16-bit quantity (agreeing with A-B modulo 2^16, and exactly when
A-B fits in signed 16 bits); for an Immediate12Hook the same (A-B)-derived
value is further masked to 12 bits and packed with the `i`/`w` sub-fields.
For both hooks, resolving while the corresponding small-data-area base was
never configured (its synthetic entry carries no value) fails fatally with
the corresponding error. -/
theorem sdaOffsetResolution (symbols : SymTab) (name : String)
    (addr wv iv A : Nat)
    (hname : lookupSym symbols name = some ⟨some A⟩) :
    (∀ B : Nat, lookupSym symbols "_SDA_BASE_" = some ⟨some B⟩ →
      Immediate16Hook.resolve ⟨addr, name, "@sda", false, none⟩ symbols =
        .ok ⟨addr, name, "@sda", false,
          some (mask_field ((A : Int) - (B : Int)) 16 true)⟩ ∧
      ((mask_field ((A : Int) - (B : Int)) 16 true : Nat) : Int) % 2 ^ 16 =
        ((A : Int) - (B : Int)) % 2 ^ 16 ∧
      specSigned16 (mask_field ((A : Int) - (B : Int)) 16 true) % 2 ^ 16 =
        ((A : Int) - (B : Int)) % 2 ^ 16 ∧
      (-(2 ^ 15) ≤ (A : Int) - (B : Int) → (A : Int) - (B : Int) < 2 ^ 15 →
        specSigned16 (mask_field ((A : Int) - (B : Int)) 16 true) =
          (A : Int) - (B : Int)) ∧
      Immediate12Hook.resolve ⟨addr, wv, iv, name, "@sda", false, none⟩ symbols =
        .ok ⟨addr, wv, iv, name, "@sda", false,
          some (imm12pack (mask_field ((A : Int) - (B : Int)) 16 true) iv wv)⟩) ∧
    (lookupSym symbols "_SDA_BASE_" = some ⟨none⟩ →
      Immediate16Hook.resolve ⟨addr, name, "@sda", false, none⟩ symbols =
        .error sdaErrMsg ∧
      Immediate12Hook.resolve ⟨addr, wv, iv, name, "@sda", false, none⟩ symbols =
        .error sdaErrMsg) ∧
    (∀ B : Nat, lookupSym symbols "_SDA2_BASE_" = some ⟨some B⟩ →
      Immediate16Hook.resolve ⟨addr, name, "@sda2", false, none⟩ symbols =
        .ok ⟨addr, name, "@sda2", false,
          some (mask_field ((A : Int) - (B : Int)) 16 true)⟩) ∧
    (lookupSym symbols "_SDA2_BASE_" = some ⟨none⟩ →
      Immediate16Hook.resolve ⟨addr, name, "@sda2", false, none⟩ symbols =
        .error sda2ErrMsg ∧
      Immediate12Hook.resolve ⟨addr, wv, iv, name, "@sda2", false, none⟩ symbols =
        .error sda2ErrMsg) := by
  have hdm : ∀ B : Nat,
      mask_field ((mask_field ((A : Int) - (B : Int)) 16 true : Nat) : Int) 16 true =
        mask_field ((A : Int) - (B : Int)) 16 true := by
    intro B
    rw [mask_field_ofNat]
    exact Nat.mod_eq_of_lt (mask_field_lt _ _ _)
  have hmf : ∀ B : Nat, mask_field ((A : Int) - (B : Int)) 16 true =
      (((A : Int) - (B : Int)) % 65536).toNat := by
    intro B
    unfold mask_field
    norm_num
    rfl
  refine ⟨?_, ?_, ?_, ?_⟩
  · intro B hbase
    refine ⟨?_, ?_, ?_, ?_, ?_⟩
    · rw [imm16_resolve_some _ _ ⟨some A⟩ hname,
        immediate_modifier_step_sda symbols ⟨some A⟩ none A B rfl hbase]
      show Except.ok (⟨addr, name, "@sda", false, some (mask_field
        ((mask_field ((A : Int) - (B : Int)) 16 true : Nat) : Int) 16 true)⟩ :
          Immediate16Hook) = _
      rw [hdm B]
    · rw [hmf B]
      omega
    · rw [hmf B]
      unfold specSigned16
      split <;> omega
    · intro hlow hhigh
      rw [hmf B]
      unfold specSigned16
      split <;> omega
    · rw [imm12_resolve_some _ _ ⟨some A⟩ hname,
        immediate_modifier_step_sda symbols ⟨some A⟩ none A B rfl hbase]
      rfl
  · intro hbase
    constructor
    · rw [imm16_resolve_some _ _ ⟨some A⟩ hname,
        immediate_modifier_step_sda_missing symbols ⟨some A⟩ none hbase]
      rfl
    · rw [imm12_resolve_some _ _ ⟨some A⟩ hname,
        immediate_modifier_step_sda_missing symbols ⟨some A⟩ none hbase]
      rfl
  · intro B hbase
    rw [imm16_resolve_some _ _ ⟨some A⟩ hname,
      immediate_modifier_step_sda2 symbols ⟨some A⟩ none A B rfl hbase]
    show Except.ok (⟨addr, name, "@sda2", false, some (mask_field
      ((mask_field ((A : Int) - (B : Int)) 16 true : Nat) : Int) 16 true)⟩ :
        Immediate16Hook) = _
    rw [hdm B]
  · intro hbase
    constructor
    · rw [imm16_resolve_some _ _ ⟨some A⟩ hname,
        immediate_modifier_step_sda2_missing symbols ⟨some A⟩ none hbase]
      rfl
    · rw [imm12_resolve_some _ _ ⟨some A⟩ hname,
        immediate_modifier_step_sda2_missing symbols ⟨some A⟩ none hbase]
      rfl

theorem sdaOffsetResolutionWitness :
    Immediate16Hook.resolve ⟨0x80002000, "foo", "@sda", false, none⟩
      [("foo", ⟨some 0x80001234⟩), ("_SDA_BASE_", ⟨some 0x80000000⟩)] =
      .ok ⟨0x80002000, "foo", "@sda", false, some 0x1234⟩ := by
  have h := sdaOffsetResolution
    [("foo", ⟨some 0x80001234⟩), ("_SDA_BASE_", ⟨some 0x80000000⟩)]
    "foo" 0x80002000 0 0 0x80001234 rfl
  have h2 := (h.1 0x80000000 rfl).1
  rw [h2]
  rfl

/-- C5: for an enabled inline-assembly injection command at origin O
(`addr ||| 0x80000000`) with payload P of length at least 4 (the last 4
bytes being the placeholder), after the relocation loop the base image at
O contains a branch to the fragment's placement address (the blob base
plus the bytes already in the blob), the blob gains exactly the payload
without its last 4 bytes followed by a 4-byte branch back to O + 4, and
the recorded per-command metadata carries the placement address and a size
equal to the full payload length. -/
theorem geckoInjectionRelocation (base : Nat) (blob0 : List Nat)
    (dol : DolFile) (cname : String) (addr : Nat) (P : List Nat)
    (st : BuildState)
    (hlen : 4 ≤ P.length)
    (hmap : ∀ k, k < 4 → dol.is_mapped ((addr ||| 0x80000000) + k) = true)
    (haddr : addr + 4 < 2 ^ 31)
    (hst : geckoPhase base ⟨blob0, dol, []⟩
      [⟨cname, true, [⟨.ASM_INSERT, addr, P⟩]⟩] = st) :
    st.datablob = blob0 ++ (P.take (P.length - 4) ++
      assemble_branch (base + blob0.length + (P.length - 4))
        ((addr + 4) ||| 0x80000000) false) ∧
    (addr + 4) ||| 0x80000000 = (addr ||| 0x80000000) + 4 ∧
    st.dol.readBytes (addr ||| 0x80000000) 4 =
      (assemble_branch (addr ||| 0x80000000) (base + blob0.length) false).map
        some ∧
    st.metadata = [⟨base + blob0.length, P.length, "ENABLED",
      ⟨cname, true, [⟨.ASM_INSERT, addr, P⟩]⟩,
      [⟨base + blob0.length, P.length, "ENABLED", ⟨.ASM_INSERT, addr, P⟩⟩]⟩] := by
  subst hst
  have htake : (P.take (P.length - 4)).length = P.length - 4 := by
    rw [List.length_take]
    omega
  have hbr4 : ∀ src tgt : Nat, (assemble_branch src tgt false).length = 4 :=
    fun src tgt => rfl
  have hred : geckoPhase base ⟨blob0, dol, []⟩
      [⟨cname, true, [⟨.ASM_INSERT, addr, P⟩]⟩] =
    ⟨blob0 ++ (P.take (P.length - 4) ++
        assemble_branch (base + blob0.length + (P.take (P.length - 4)).length)
          ((addr + 4) ||| 0x80000000) false),
      dol.writeBytes (addr ||| 0x80000000)
        (assemble_branch (addr ||| 0x80000000) (base + blob0.length) false),
      [⟨base + blob0.length,
        (P.take (P.length - 4) ++
          assemble_branch (base + blob0.length + (P.take (P.length - 4)).length)
            ((addr + 4) ||| 0x80000000) false).length, "ENABLED",
        ⟨cname, true, [⟨.ASM_INSERT, addr, P⟩]⟩,
        [⟨base + blob0.length, P.length, "ENABLED",
          ⟨.ASM_INSERT, addr, P⟩⟩]⟩]⟩ := rfl
  rw [hred]
  refine ⟨?_, ?_, ?_, ?_⟩
  · rw [htake]
  · have e1 : addr + 4 ||| 0x80000000 = addr + 4 + 0x80000000 :=
      lor_high_bit (addr + 4) haddr
    have e2 : addr ||| 0x80000000 = addr + 0x80000000 :=
      lor_high_bit addr (by omega)
    omega
  · show (dol.writeBytes (addr ||| 0x80000000)
      (assemble_branch (addr ||| 0x80000000) (base + blob0.length) false)).readBytes
        (addr ||| 0x80000000) 4 = _
    rw [← hbr4 (addr ||| 0x80000000) (base + blob0.length)]
    apply DolFile.readBytes_writeBytes
    intro k hk
    apply hmap
    rw [hbr4] at hk
    exact hk
  · rw [List.length_append, htake, hbr4]
    have hsz : P.length - 4 + 4 = P.length := by omega
    rw [hsz]

theorem geckoInjectionRelocationWitness :
    (geckoPhase 0x80004000
        ⟨[], ⟨[⟨0x80003000, [0, 0, 0, 0, 0, 0, 0, 0]⟩], []⟩, []⟩
        [⟨"c", true, [⟨.ASM_INSERT, 0x3000, [1, 2, 3, 4, 9, 9, 9, 9]⟩]⟩]).datablob =
      [] ++ ([1, 2, 3, 4, 9, 9, 9, 9].take ([1, 2, 3, 4, 9, 9, 9, 9].length - 4) ++
        assemble_branch (0x80004000 + List.length ([] : List Nat) +
            ([1, 2, 3, 4, 9, 9, 9, 9].length - 4))
          ((0x3000 + 4) ||| 0x80000000) false) :=
  (geckoInjectionRelocation 0x80004000 []
    ⟨[⟨0x80003000, [0, 0, 0, 0, 0, 0, 0, 0]⟩], []⟩ "c" 0x3000
    [1, 2, 3, 4, 9, 9, 9, 9] _ (by decide) (by decide) (by decide) rfl).1

/-- C2 counterexample: when the project produced a compiled binary, the
binary — not the relocated injected-code fragments — occupies the start of
the appended blob, and the first fragment's recorded placement address is
the base address plus the binary's (padded) length, not the base address
itself. -/
theorem injectionsNotFirstInBlob :
    (build_dol 7 11 (fun _ d => d) none (fun _ => none) (some 0x80004000)
        (some [1, 2, 3, 4])
        [⟨"c", true, [⟨.ASM_INSERT, 0x3000, [9, 9, 9, 9, 5, 5, 5, 5]⟩]⟩]
        [] [] ⟨[⟨0x80003000, [0, 0, 0, 0, 0, 0, 0, 0]⟩], []⟩).map
      (fun r => (r.datablob.take 4,
        r.metadata.map (fun m => (m.vaddr, m.cmds.map GeckoCmdMeta.vaddr)))) =
      .ok ([1, 2, 3, 4], [(0x80004004, [0x80004004])]) ∧
    (0x80004004 : Nat) ≠ 0x80004000 := by
  constructor
  · rfl
  · decide

/-- C2 amended: in the appended blob built by `build_dol`, the compiled
project binary (zero-padded to a 4-byte boundary) is placed first,
starting at the base address, followed by the relocated injected-code
fragments of the code-table entries in table order; after the fragments
nothing else is appended to the blob.  When no project binary was
produced, the fragments start at the base address itself. -/
theorem blobOrderCompiledThenInjections (maxText maxData : Nat)
    (geckoApply : List GeckoCode → DolFile → DolFile)
    (arenaPatcher : Option (DolFile → Nat → DolFile))
    (fs : String → Option (List Nat))
    (cfgBase : Option Nat) (bin : Option (List Nat)) (table : List GeckoCode)
    (hooks : List HookU) (symbols : SymTab) (dol : DolFile)
    (res : BuildResult)
    (hres : build_dol maxText maxData geckoApply arenaPatcher fs cfgBase bin
      table hooks symbols dol = .ok res) :
    res.datablob = initialBlob bin ++
      geckoBlobs (computeBaseAddr cfgBase dol) (initialBlob bin).length table := by
  unfold build_dol at hres
  simp only [bind, Except.bind] at hres
  split at hres
  · exact absurd hres (by simp)
  · split at hres
    · exact absurd hres (by simp)
    · have hr := Except.ok.inj hres
      rw [← hr]
      show (geckoPhase (computeBaseAddr cfgBase dol)
        ⟨initialBlob bin, dol, []⟩ table).datablob = _
      rw [geckoPhase_datablob]

theorem blobOrderWitness :
    (⟨0x80000000, [9, 9, 0, 0], [], [],
        ⟨[⟨0x80000000, [9, 9, 0, 0]⟩], []⟩⟩ : BuildResult).datablob =
      initialBlob (some [9, 9]) ++
        geckoBlobs (computeBaseAddr none ⟨[], []⟩)
          (initialBlob (some [9, 9])).length [] :=
  blobOrderCompiledThenInjections 7 11 (fun _ d => d) none (fun _ => none)
    none (some [9, 9]) [] [] [] ⟨[], []⟩ _ rfl
